import Mathlib

/-!
Verification of the alert-template data extension logic of
`pkg/services/ngalert/notifier/channels/template_data.go`: private-key
filtering, URL synthesis (dashboard / panel / silence), group extension,
the template-render closure and the firing/resolved status filters.

Go's standard-library collaborators (`net/url`, `path`, `strings.Join`)
are modelled explicitly below; each such definition is marked as a
modelled collaborator in its doc comment.
-/

namespace GrafanaTemplateData

/-- Key-value map (Go `template.KV`, a `map[string]string`), modelled as an
association list in some iteration order; Go map keys are unique. -/
abbrev KV := List (String × String)

/-- Go map read `kv[k]`: the stored value, or the zero value `""` when the
key is absent. -/
def kvGet (kv : KV) (k : String) : String := ((kv.lookup k).getD "")

/-- `template.KV.Remove`: a copy of the map without the listed keys. -/
def kvRemove (kv : KV) (keys : List String) : KV :=
  kv.filter (fun p => !(keys.contains p.1))

/-- Go `strings.HasPrefix`, stated over the character lists. -/
def strHasPrefix (pre s : String) : Bool := pre.toList.isPrefixOf s.toList

/-- Go `strings.HasSuffix`, stated over the character lists. -/
def strHasSuffix (suf s : String) : Bool := suf.toList.isSuffixOf s.toList

/-- The private-key test used by `removePrivateItems` and the matcher loop:
the key starts with `__` and ends with `__`. -/
def isPrivateKey (k : String) : Bool := strHasPrefix "__" k && strHasSuffix "__" k

/-- `removePrivateItems` (template_data.go:49-56): walk the map's own keys
and remove every private one. -/
def removePrivateItems (kv : KV) : KV :=
  (kv.map Prod.fst).foldl
    (fun acc key => if isPrivateKey key then kvRemove acc [key] else acc) kv

/-- Modelled collaborator: a parsed `net/url.URL`, restricted to the
components this code touches (scheme, host, path, raw query). -/
structure URL where
  scheme : String
  host : String
  path : String
  rawQuery : String
deriving DecidableEq, Repr

/-- Whether the string holds an ASCII control character (Go `net/url`
rejects URLs containing one). -/
def hasCtlChar (s : String) : Bool :=
  s.toList.any (fun c => c.toNat < 0x20 || c.toNat == 0x7f)

/-- Split a character list at the first occurrence of `sep`: the part before
and the part after, or `none` when `sep` does not occur. -/
def breakOnSub (sep : List Char) : List Char → Option (List Char × List Char)
  | [] => none
  | c :: rest =>
    if sep.isPrefixOf (c :: rest) then some ([], (c :: rest).drop sep.length)
    else
      match breakOnSub sep rest with
      | some (pre, post) => some (c :: pre, post)
      | none => none

/-- Modelled collaborator: Go `url.Parse`, simplified to the
`scheme://host/path?query` shape this code works with, failing exactly on
ASCII control characters (which Go rejects). -/
def urlParse (s : String) : Except String URL :=
  if hasCtlChar s then .error "net/url: invalid control character in URL"
  else
    let cs := s.toList
    let (scheme, rest) :=
      match breakOnSub ([':', '/', '/']) cs with
      | some (pre, post) => (pre, post)
      | none => ([], cs)
    let host := if scheme.isEmpty then [] else rest.takeWhile (fun c => c ≠ '/')
    let pathq := if scheme.isEmpty then rest else rest.drop host.length
    let path := pathq.takeWhile (fun c => c ≠ '?')
    let rawq := (pathq.drop path.length).drop 1
    .ok ⟨String.mk scheme, String.mk host, String.mk path, String.mk rawq⟩

/-- Modelled collaborator: Go `url.URL.String` for the URLs this code
builds: `scheme://host` when a scheme is present, then the path, then
`?rawQuery` when the raw query is non-empty. -/
def urlString (u : URL) : String :=
  (if u.scheme = "" then (if u.host = "" then "" else "//" ++ u.host)
   else u.scheme ++ "://" ++ u.host)
  ++ u.path
  ++ (if u.rawQuery = "" then "" else "?" ++ u.rawQuery)

/-- An uppercase hexadecimal digit. -/
def hexDigitUpper (n : Nat) : Char :=
  if n < 10 then Char.ofNat (48 + n) else Char.ofNat (55 + n)

/-- The bytes Go's query escaping leaves untouched: ASCII letters, digits,
`-`, `.`, `_`, `~`. -/
def isUnreservedByte (b : Nat) : Bool :=
  (65 ≤ b && b ≤ 90) || (97 ≤ b && b ≤ 122) || (48 ≤ b && b ≤ 57) ||
  b == 45 || b == 46 || b == 95 || b == 126

/-- One byte under Go's query escaping: unreserved bytes kept, space becomes
`+`, anything else `%XX`. -/
def escapeQueryByte (b : Nat) : List Char :=
  if isUnreservedByte b then [Char.ofNat b]
  else if b == 32 then ['+']
  else ['%', hexDigitUpper (b / 16), hexDigitUpper (b % 16)]

/-- The UTF-8 bytes of one character, as numbers. -/
def utf8ByteList (c : Char) : List Nat :=
  let n := c.toNat
  if n < 0x80 then [n]
  else if n < 0x800 then [0xc0 + n / 0x40, 0x80 + n % 0x40]
  else if n < 0x10000 then
    [0xe0 + n / 0x1000, 0x80 + n / 0x40 % 0x40, 0x80 + n % 0x40]
  else
    [0xf0 + n / 0x40000, 0x80 + n / 0x1000 % 0x40, 0x80 + n / 0x40 % 0x40,
     0x80 + n % 0x40]

/-- Modelled collaborator: Go `url.QueryEscape`, byte by byte over the
string's UTF-8 encoding. -/
def queryEscape (s : String) : String :=
  String.mk (((s.toList.map utf8ByteList).flatten.map escapeQueryByte).flatten)

/-- Modelled collaborator: Go `strings.Join` — the pieces interleaved with
the separator. -/
def joinSep (sep : String) : List String → String
  | [] => ""
  | [x] => x
  | x :: y :: rest => x ++ sep ++ joinSep sep (y :: rest)

/-- Split a character list on a separator character. -/
def splitChar (sep : Char) : List Char → List (List Char)
  | [] => [[]]
  | c :: rest =>
    let r := splitChar sep rest
    if c = sep then [] :: r
    else
      match r with
      | [] => [[c]]
      | h :: t => (c :: h) :: t

/-- One step of Go `path.Clean`'s segment processing: empty and `.` segments
vanish, `..` pops the previous segment (dropped at the root of a rooted
path, kept literally when there is nothing left to pop in a relative path).
The accumulator holds processed segments in reverse. -/
def cleanStep (rooted : Bool) (out : List String) (seg : String) : List String :=
  if seg = "" || seg = "." then out
  else if seg = ".." then
    match out with
    | [] => if rooted then [] else [".."]
    | top :: rest => if top = ".." then ".." :: top :: rest else rest
  else seg :: out

/-- Modelled collaborator: Go `path.Clean` — lexical cleaning of a
slash-separated path. -/
def cleanPath (s : String) : String :=
  if s = "" then "."
  else
    let cs := s.toList
    let rooted := cs.head? == some '/'
    let segs := (splitChar '/' cs).map String.mk
    let out := (segs.foldl (cleanStep rooted) []).reverse
    if rooted then "/" ++ joinSep "/" out
    else if out = [] then "." else joinSep "/" out

/-- Modelled collaborator: Go `path.Join` — drop leading empty elements,
join the rest with `/` and clean; all-empty input yields `""`. -/
def pathJoin (elems : List String) : String :=
  match elems.dropWhile (fun e => e = "") with
  | [] => ""
  | es => cleanPath (joinSep "/" es)

/-- Lexicographic comparison of character lists by code point (UTF-8 byte
order and code-point order agree). -/
def charListLe : List Char → List Char → Bool
  | [], _ => true
  | _ :: _, [] => false
  | a :: as, b :: bs =>
    if a.toNat < b.toNat then true
    else if b.toNat < a.toNat then false
    else charListLe as bs

/-- Modelled collaborator: the string order Go `sort.Strings` sorts by. -/
def strLe (a b : String) : Bool := charListLe a.toList b.toList

/-- `template.Alert`, the raw alert record handed in by the alertmanager
template package; timestamps are opaque here and modelled as numbers. -/
structure Alert where
  status : String
  labels : KV
  annotations : KV
  startsAt : Nat
  endsAt : Nat
  generatorURL : String
  fingerprint : String
deriving DecidableEq, Repr

/-- `ExtendedAlert` (template_data.go:22-33). -/
structure ExtendedAlert where
  status : String
  labels : KV
  annotations : KV
  startsAt : Nat
  endsAt : Nat
  generatorURL : String
  fingerprint : String
  silenceURL : String
  dashboardURL : String
  panelURL : String
deriving DecidableEq, Repr

/-- `template.Data`, the raw alert group record. -/
structure Data where
  receiver : String
  status : String
  alerts : List Alert
  groupLabels : KV
  commonLabels : KV
  commonAnnotations : KV
  externalURL : String
deriving DecidableEq, Repr

/-- `ExtendedData` (template_data.go:37-47). -/
structure ExtendedData where
  receiver : String
  status : String
  alerts : List ExtendedAlert
  groupLabels : KV
  commonLabels : KV
  commonAnnotations : KV
  externalURL : String
deriving DecidableEq, Repr

/-- The matcher contributed by one label entry of the silence-URL loop
(template_data.go:88-93): `key=value` for a non-private label, nothing for
a private one. -/
def matcherOfLabel (p : String × String) : Option String :=
  if isPrivateKey p.1 then none else some (p.1 ++ "=" ++ p.2)

/-- The URL-synthesis block of `extendAlert` (template_data.go:70-96), given
the already-parsed external URL `u`: dashboard URL from the
`__dashboardUid__` annotation, panel URL from `__panelId__` under it, and
the silence URL from the sorted non-private label matchers. -/
def fillURLs (extended : ExtendedAlert) (alert : Alert) (u : URL) :
    ExtendedAlert :=
  let externalPath := u.path
  let dashboardUid := kvGet alert.annotations "__dashboardUid__"
  let extended :=
    if 0 < dashboardUid.length then
      let u1 : URL := { u with path := pathJoin [externalPath, "/d/", dashboardUid] }
      let e1 := { extended with dashboardURL := urlString u1 }
      let panelId := kvGet alert.annotations "__panelId__"
      if 0 < panelId.length then
        { e1 with panelURL := urlString { u1 with rawQuery := "viewPanel=" ++ panelId } }
      else e1
    else extended
  let matchers := alert.labels.filterMap matcherOfLabel
  let sorted := List.insertionSort (fun a b => strLe a b = true) matchers
  { extended with
    silenceURL := urlString { u with
      path := pathJoin [externalPath, "/alerting/silence/new"],
      rawQuery := "alertmanager=grafana&matchers=" ++ queryEscape (joinSep "," sorted) } }

/-- The final step of `extendAlert` (template_data.go:99-101): remove
private annotations and labels so they do not show up in the template. -/
def stripPrivate (e : ExtendedAlert) : ExtendedAlert :=
  { e with
    annotations := removePrivateItems e.annotations,
    labels := removePrivateItems e.labels }

/-- The initial `ExtendedAlert` record of `extendAlert`
(template_data.go:59-68): the raw alert's fields copied verbatim, the three
URL fields at their zero value. -/
def initExtended (alert : Alert) : ExtendedAlert :=
  { status := alert.status
    labels := alert.labels
    annotations := alert.annotations
    startsAt := alert.startsAt
    endsAt := alert.endsAt
    generatorURL := alert.generatorURL
    fingerprint := alert.fingerprint
    silenceURL := ""
    dashboardURL := ""
    panelURL := "" }

/-- `extendAlert` (template_data.go:58-104). -/
def extendAlert (alert : Alert) (externalURL : String) :
    Except String ExtendedAlert :=
  let extended := initExtended alert
  if 0 < externalURL.length then
    match urlParse externalURL with
    | .error err => .error ("failed to parse external URL: " ++ err)
    | .ok u => .ok (stripPrivate (fillURLs extended alert u))
  else .ok (stripPrivate extended)

/-- The loop of `ExtendData` (template_data.go:107-115): extend each alert
in input order, appending to the accumulator, returning the first error
immediately (discarding the partial results). -/
def extendLoop (externalURL : String) (acc : List ExtendedAlert) :
    List Alert → Except String (List ExtendedAlert)
  | [] => .ok acc
  | alert :: rest =>
    match extendAlert alert externalURL with
    | .error e => .error e
    | .ok extendedAlert => extendLoop externalURL (acc ++ [extendedAlert]) rest

/-- `ExtendData` (template_data.go:106-128): extend each alert in order,
aborting on the first error, then filter the group-level common labels and
annotations. -/
def ExtendData (data : Data) : Except String ExtendedData :=
  match extendLoop data.externalURL [] data.alerts with
  | .error e => .error e
  | .ok alerts =>
    .ok
      { receiver := data.receiver
        status := data.status
        alerts := alerts
        groupLabels := data.groupLabels
        commonLabels := removePrivateItems data.commonLabels
        commonAnnotations := removePrivateItems data.commonAnnotations
        externalURL := data.externalURL }

/-- The Prometheus `model.AlertFiring` status literal. -/
def alertFiring : String := "firing"

/-- The Prometheus `model.AlertResolved` status literal. -/
def alertResolved : String := "resolved"

/-- `ExtendedAlerts.Firing` (template_data.go:147-155): collect the firing
alerts in order. -/
def Firing (as : List ExtendedAlert) : List ExtendedAlert :=
  as.foldl (fun res a => if a.status == alertFiring then res ++ [a] else res) []

/-- `ExtendedAlerts.Resolved` (template_data.go:158-166): collect the
resolved alerts in order. -/
def Resolved (as : List ExtendedAlert) : List ExtendedAlert :=
  as.foldl (fun res a => if a.status == alertResolved then res ++ [a] else res) []

/-- The render closure returned by `TmplText` (template_data.go:138-143),
with the shared `*tmplErr` slot made explicit state. `execute` stands for
the template engine's text-execution method applied to the enriched data
(an external collaborator): it yields the rendered text and a possible
error. A set slot short-circuits to `""` and leaves the slot unchanged; an
unset slot runs the engine and stores its error outcome. -/
def tmplRender (execute : String → String × Option String)
    (name : String) (tmplErr : Option String) : String × Option String :=
  match tmplErr with
  | some e => ("", some e)
  | none => execute name

/-- The closure run over a list of template names in order, threading the
shared error slot. -/
def tmplRenderAll (execute : String → String × Option String)
    (names : List String) (tmplErr : Option String) : Option String :=
  names.foldl (fun slot n => (tmplRender execute n slot).2) tmplErr

/-! Concrete inputs used by witnesses and counterexamples. -/

/-- The worked example's external URL. -/
def exampleURL : String := "https://example.com/"

/-- The spec's worked-example alert exactly as the spec states it: the
dashboard uid among the labels, the panel id among the annotations. -/
def exampleAlert : Alert :=
  { status := "firing"
    labels := [("alertname", "Test"), ("__dashboardUid__", "abc"), ("severity", "high")]
    annotations := [("__panelId__", "7")]
    startsAt := 0
    endsAt := 0
    generatorURL := ""
    fingerprint := "fp" }

/-- The worked-example alert with the private uid and panel keys where the
code reads them: in the annotations. -/
def exampleAlertFixed : Alert :=
  { status := "firing"
    labels := [("alertname", "Test"), ("severity", "high")]
    annotations := [("__dashboardUid__", "abc"), ("__panelId__", "7")]
    startsAt := 0
    endsAt := 0
    generatorURL := ""
    fingerprint := "fp" }

/-- A malformed external URL: it holds an ASCII control character. -/
def badURL : String := "https://example.com/\x00"

/-- A one-alert group with a well-formed external URL. -/
def exampleGroup : Data :=
  { receiver := "webhook"
    status := "firing"
    alerts := [exampleAlertFixed]
    groupLabels := [("alertname", "Test")]
    commonLabels := [("alertname", "Test"), ("__x__", "1")]
    commonAnnotations := [("__a__", "b"), ("note", "n")]
    externalURL := exampleURL }

/-- An alert group with no alerts and a malformed external URL. -/
def emptyBadGroup : Data :=
  { receiver := "webhook"
    status := "firing"
    alerts := []
    groupLabels := []
    commonLabels := []
    commonAnnotations := []
    externalURL := badURL }

/-- A one-alert group with a malformed external URL. -/
def badGroup : Data := { emptyBadGroup with alerts := [exampleAlertFixed] }

/-- The worked example's external URL, parsed. -/
def exampleParsedURL : URL :=
  { scheme := "https", host := "example.com", path := "/", rawQuery := "" }

/-- What `ExtendData` produces for `exampleGroup`. -/
def exampleExtendedData : ExtendedData :=
  { receiver := "webhook"
    status := "firing"
    alerts :=
      [{ status := "firing"
         labels := [("alertname", "Test"), ("severity", "high")]
         annotations := []
         startsAt := 0
         endsAt := 0
         generatorURL := ""
         fingerprint := "fp"
         silenceURL := "https://example.com/alerting/silence/new?alertmanager=grafana&matchers=alertname%3DTest%2Cseverity%3Dhigh"
         dashboardURL := "https://example.com/d/abc"
         panelURL := "https://example.com/d/abc?viewPanel=7" }]
    groupLabels := [("alertname", "Test")]
    commonLabels := [("alertname", "Test")]
    commonAnnotations := [("note", "n")]
    externalURL := "https://example.com/" }

/-- What `extendAlert` produces for `exampleAlertFixed` under
`exampleURL`. -/
def exampleExtendedAlert : ExtendedAlert :=
  { status := "firing"
    labels := [("alertname", "Test"), ("severity", "high")]
    annotations := []
    startsAt := 0
    endsAt := 0
    generatorURL := ""
    fingerprint := "fp"
    silenceURL := "https://example.com/alerting/silence/new?alertmanager=grafana&matchers=alertname%3DTest%2Cseverity%3Dhigh"
    dashboardURL := "https://example.com/d/abc"
    panelURL := "https://example.com/d/abc?viewPanel=7" }

/-! ### Order properties of the matcher sort relation -/

/-- `Char.toNat` determines the character. -/
theorem char_toNat_inj {a b : Char} (h : a.toNat = b.toNat) : a = b :=
  Char.eq_of_val_eq (UInt32.eq_of_toBitVec_eq (BitVec.eq_of_toNat_eq h))

theorem charListLe_total : ∀ as bs, charListLe as bs = true ∨ charListLe bs as = true
  | [], _ => Or.inl rfl
  | _ :: _, [] => Or.inr rfl
  | a :: as, b :: bs => by
    rcases Nat.lt_trichotomy a.toNat b.toNat with h | h | h
    · exact Or.inl (by simp [charListLe, h])
    · rcases charListLe_total as bs with ih | ih
      · exact Or.inl (by simp [charListLe, h, Nat.lt_irrefl, ih])
      · exact Or.inr (by simp [charListLe, h, Nat.lt_irrefl, ih])
    · exact Or.inr (by simp [charListLe, h])

theorem charListLe_trans : ∀ as bs cs, charListLe as bs = true →
    charListLe bs cs = true → charListLe as cs = true
  | [], _, _, _, _ => rfl
  | _ :: _, [], _, h1, _ => by simp [charListLe] at h1
  | _ :: _, _ :: _, [], _, h2 => by simp [charListLe] at h2
  | a :: as, b :: bs, c :: cs, h1, h2 => by
    rcases Nat.lt_trichotomy a.toNat b.toNat with hab | hab | hab
    · rcases Nat.lt_trichotomy b.toNat c.toNat with hbc | hbc | hbc
      · simp [charListLe, Nat.lt_trans hab hbc]
      · simp [charListLe, hbc ▸ hab]
      · simp [charListLe, Nat.lt_asymm hbc, hbc] at h2
    · rcases Nat.lt_trichotomy b.toNat c.toNat with hbc | hbc | hbc
      · simp [charListLe, hab ▸ hbc]
      · simp only [charListLe, hab, hbc, Nat.lt_irrefl, if_false] at h1 h2 ⊢
        exact charListLe_trans as bs cs h1 h2
      · simp [charListLe, Nat.lt_asymm hbc, hbc] at h2
    · simp [charListLe, Nat.lt_asymm hab, hab] at h1

theorem charListLe_antisymm : ∀ as bs, charListLe as bs = true →
    charListLe bs as = true → as = bs
  | [], [], _, _ => rfl
  | [], _ :: _, _, h2 => by simp [charListLe] at h2
  | _ :: _, [], h1, _ => by simp [charListLe] at h1
  | a :: as, b :: bs, h1, h2 => by
    rcases Nat.lt_trichotomy a.toNat b.toNat with h | h | h
    · simp [charListLe, Nat.lt_asymm h, h] at h2
    · have hab : a = b := char_toNat_inj h
      subst hab
      simp only [charListLe, Nat.lt_irrefl, if_false] at h1 h2
      rw [charListLe_antisymm as bs h1 h2]
    · simp [charListLe, Nat.lt_asymm h, h] at h1

/-- `String.toList` determines the string. -/
theorem string_toList_inj {a b : String} (h : a.toList = b.toList) : a = b := by
  cases a
  cases b
  exact congrArg String.mk (by simpa [String.toList] using h)

theorem strLe_total (a b : String) : strLe a b = true ∨ strLe b a = true :=
  charListLe_total a.toList b.toList

theorem strLe_trans {a b c : String} (h1 : strLe a b = true)
    (h2 : strLe b c = true) : strLe a c = true :=
  charListLe_trans a.toList b.toList c.toList h1 h2

theorem strLe_antisymm {a b : String} (h1 : strLe a b = true)
    (h2 : strLe b a = true) : a = b :=
  string_toList_inj (charListLe_antisymm a.toList b.toList h1 h2)

instance : IsTotal String (fun a b => strLe a b = true) := ⟨strLe_total⟩

instance : IsTrans String (fun a b => strLe a b = true) :=
  ⟨fun _ _ _ => strLe_trans⟩

instance : IsAntisymm String (fun a b => strLe a b = true) :=
  ⟨fun _ _ => strLe_antisymm⟩

/-- Two label lists that are permutations of each other sort to the same
matcher list. -/
theorem insertionSort_eq_of_perm {l₁ l₂ : List String} (h : l₁.Perm l₂) :
    List.insertionSort (fun a b => strLe a b = true) l₁ =
      List.insertionSort (fun a b => strLe a b = true) l₂ :=
  List.eq_of_perm_of_sorted
    ((List.perm_insertionSort _ l₁).trans
      (h.trans (List.perm_insertionSort _ l₂).symm))
    (List.sorted_insertionSort _ l₁) (List.sorted_insertionSort _ l₂)

/-! ### Lookup behaviour of the private-key filter -/

theorem lookup_eq_none_of_not_mem :
    ∀ (kv : KV) (k : String), k ∉ kv.map Prod.fst → kv.lookup k = none
  | [], _, _ => rfl
  | (k', _) :: rest, k, h => by
    simp only [List.map_cons, List.mem_cons, not_or] at h
    rw [List.lookup_cons]
    rw [beq_false_of_ne h.1]
    exact lookup_eq_none_of_not_mem rest k h.2

/-- Looking a key up after filtering by a predicate on keys. -/
theorem lookup_filter_key (f : String → Bool) :
    ∀ (kv : KV) (k : String),
      (kv.filter (fun p => f p.1)).lookup k =
        if f k then kv.lookup k else none
  | [], k => by simp
  | (k', v) :: rest, k => by
    by_cases hk : k = k'
    · subst hk
      cases hf : f k <;>
        simp [List.filter_cons, hf, List.lookup_cons,
          lookup_filter_key f rest k]
    · have hbeq : (k == k') = false := beq_false_of_ne hk
      cases hf : f k' <;>
        simp [List.filter_cons, hf, List.lookup_cons, hbeq,
          lookup_filter_key f rest k]

theorem lookup_kvRemove_self (kv : KV) (key : String) :
    (kvRemove kv [key]).lookup key = none := by
  have h := lookup_filter_key (fun x => !([key].contains x)) kv key
  unfold kvRemove
  rw [h]
  simp

theorem lookup_kvRemove_ne (kv : KV) (k key : String) (h : k ≠ key) :
    (kvRemove kv [key]).lookup k = kv.lookup k := by
  have hf := lookup_filter_key (fun x => !([key].contains x)) kv k
  unfold kvRemove
  rw [hf]
  simp [h]

theorem removeKeysFold_lookup :
    ∀ (ks : List String) (kv : KV) (k : String),
      ((ks.foldl
          (fun acc key => if isPrivateKey key then kvRemove acc [key] else acc)
          kv).lookup k) =
        if isPrivateKey k = true ∧ k ∈ ks then none else kv.lookup k
  | [], kv, k => by simp
  | key :: ks, kv, k => by
    rw [List.foldl_cons, removeKeysFold_lookup ks _ k]
    by_cases hpk : isPrivateKey key = true
    · rw [if_pos hpk]
      by_cases hk : k = key
      · subst hk
        by_cases hm : isPrivateKey k = true ∧ k ∈ ks
        · simp [hm, hpk, List.mem_cons]
        · simp [hm, hpk, List.mem_cons, lookup_kvRemove_self kv k]
      · rw [lookup_kvRemove_ne kv k key hk]
        simp [List.mem_cons, hk]
    · rw [if_neg hpk]
      by_cases hk : k = key
      · subst hk
        simp [List.mem_cons, hpk]
      · simp [List.mem_cons, hk]

/-- The net effect of `removePrivateItems` on lookups: private keys vanish,
other keys keep their value. -/
theorem removePrivateItems_lookup (kv : KV) (k : String) :
    (removePrivateItems kv).lookup k =
      if isPrivateKey k then none else kv.lookup k := by
  unfold removePrivateItems
  rw [removeKeysFold_lookup]
  by_cases hp : isPrivateKey k = true
  · by_cases hm : k ∈ kv.map Prod.fst
    · simp [hp, hm]
    · simp [hp, hm, lookup_eq_none_of_not_mem kv k hm]
  · simp [hp]

/-! ### Shape lemmas for `extendAlert` -/

theorem fillURLs_labels (e : ExtendedAlert) (a : Alert) (u : URL) :
    (fillURLs e a u).labels = e.labels := by
  unfold fillURLs
  dsimp only
  split <;> (try split) <;> rfl

theorem fillURLs_annotations (e : ExtendedAlert) (a : Alert) (u : URL) :
    (fillURLs e a u).annotations = e.annotations := by
  unfold fillURLs
  dsimp only
  split <;> (try split) <;> rfl

theorem string_pos_of_ne_empty {s : String} (h : s ≠ "") : 0 < s.length := by
  cases s with
  | mk data =>
    cases data with
    | nil => exact absurd rfl h
    | cons c cs => simp [String.length]

theorem extendAlert_ok_pos (a : Alert) (s : String) (u : URL)
    (hlen : 0 < s.length) (hp : urlParse s = .ok u) :
    extendAlert a s = .ok (stripPrivate (fillURLs (initExtended a) a u)) := by
  unfold extendAlert
  dsimp only
  rw [if_pos hlen, hp]

theorem extendAlert_err (a : Alert) (s : String) (e : String)
    (hlen : 0 < s.length) (hp : urlParse s = .error e) :
    extendAlert a s = .error ("failed to parse external URL: " ++ e) := by
  unfold extendAlert
  dsimp only
  rw [if_pos hlen, hp]

theorem extendAlert_no_url (a : Alert) (s : String) (hlen : ¬ 0 < s.length) :
    extendAlert a s = .ok (stripPrivate (initExtended a)) := by
  unfold extendAlert
  dsimp only
  rw [if_neg hlen]

/-! ### Non-emptiness of the derived URL strings -/

theorem string_ne_empty_of_pos {s : String} (h : 0 < s.length) : s ≠ "" := by
  intro he
  subst he
  simp at h

theorem cleanStep_all_ne_empty (rooted : Bool) (out : List String)
    (seg : String) (hout : ∀ x ∈ out, x ≠ "") :
    ∀ x ∈ cleanStep rooted out seg, x ≠ "" := by
  unfold cleanStep
  by_cases h1 : (seg = "" || seg = ".") = true
  · rw [if_pos h1]
    exact hout
  · rw [if_neg h1]
    simp only [Bool.or_eq_true, decide_eq_true_eq, not_or] at h1
    by_cases h2 : seg = ".."
    · rw [if_pos h2]
      cases out with
      | nil =>
        cases rooted with
        | true =>
          intro x hx
          simp at hx
        | false =>
          intro x hx
          simp at hx
          subst hx
          exact (by decide : (".." : String) ≠ "")
      | cons top rest =>
        dsimp only
        by_cases ht : top = ".."
        · rw [if_pos ht]
          intro x hx
          rcases List.mem_cons.mp hx with rfl | hx'
          · exact (by decide : (".." : String) ≠ "")
          · exact hout x hx'
        · rw [if_neg ht]
          intro x hx
          exact hout x (List.mem_cons_of_mem top hx)
    · rw [if_neg h2]
      intro x hx
      rcases List.mem_cons.mp hx with rfl | hx'
      · exact h1.1
      · exact hout x hx'

theorem foldl_cleanStep_all_ne_empty (rooted : Bool) :
    ∀ (segs : List String) (out : List String), (∀ x ∈ out, x ≠ "") →
      ∀ x ∈ segs.foldl (cleanStep rooted) out, x ≠ ""
  | [], _, h => h
  | seg :: segs, out, h => by
    rw [List.foldl_cons]
    exact foldl_cleanStep_all_ne_empty rooted segs _
      (cleanStep_all_ne_empty rooted out seg h)

theorem joinSep_slash_ne_empty (out : List String) (hne : out ≠ [])
    (hall : ∀ x ∈ out, x ≠ "") : joinSep "/" out ≠ "" := by
  cases out with
  | nil => exact absurd rfl hne
  | cons x rest =>
    cases rest with
    | nil => exact hall x (List.mem_singleton_self x)
    | cons y t =>
      show x ++ "/" ++ joinSep "/" (y :: t) ≠ ""
      apply string_ne_empty_of_pos
      rw [String.length_append, String.length_append]
      have h1 : ("/" : String).length = 1 := rfl
      omega

theorem cleanPath_ne_empty (s : String) : cleanPath s ≠ "" := by
  unfold cleanPath
  dsimp only
  split_ifs with h1 h2 h3
  · intro h; simp at h
  · apply string_ne_empty_of_pos
    rw [String.length_append]
    have hl : ("/" : String).length = 1 := rfl
    omega
  · intro h; simp at h
  · apply joinSep_slash_ne_empty _ h3
    intro x hx
    exact foldl_cleanStep_all_ne_empty _ _ [] (by simp) x
      (List.mem_reverse.mp hx)

theorem pathJoin_dash_ne_empty (p uid : String) :
    pathJoin [p, "/d/", uid] ≠ "" := by
  unfold pathJoin
  by_cases hp : p = ""
  · subst hp
    rw [show List.dropWhile (fun e => e = "") ["", "/d/", uid] = ["/d/", uid]
        by simp [List.dropWhile_cons]]
    exact cleanPath_ne_empty _
  · rw [show List.dropWhile (fun e => e = "") [p, "/d/", uid] = [p, "/d/", uid]
        by simp [List.dropWhile_cons, hp]]
    exact cleanPath_ne_empty _

theorem urlString_ne_empty (u : URL) (h : u.path ≠ "") : urlString u ≠ "" := by
  apply string_ne_empty_of_pos
  unfold urlString
  rw [String.length_append, String.length_append]
  have := string_pos_of_ne_empty h
  omega

/-! ### The URL fields of `fillURLs` -/

theorem fillURLs_silenceURL (e : ExtendedAlert) (a : Alert) (u : URL) :
    (fillURLs e a u).silenceURL =
      urlString { u with
        path := pathJoin [u.path, "/alerting/silence/new"],
        rawQuery := "alertmanager=grafana&matchers=" ++
          queryEscape (joinSep ","
            (List.insertionSort (fun x y => strLe x y = true)
              (a.labels.filterMap matcherOfLabel))) } := rfl

theorem fillURLs_dashboardURL (e : ExtendedAlert) (a : Alert) (u : URL) :
    (fillURLs e a u).dashboardURL =
      if 0 < (kvGet a.annotations "__dashboardUid__").length then
        urlString { u with
          path := pathJoin [u.path, "/d/", kvGet a.annotations "__dashboardUid__"] }
      else e.dashboardURL := by
  unfold fillURLs
  dsimp only
  split <;> (try split) <;> rfl

theorem fillURLs_panelURL (e : ExtendedAlert) (a : Alert) (u : URL) :
    (fillURLs e a u).panelURL =
      if 0 < (kvGet a.annotations "__dashboardUid__").length then
        if 0 < (kvGet a.annotations "__panelId__").length then
          urlString { u with
            path := pathJoin [u.path, "/d/", kvGet a.annotations "__dashboardUid__"],
            rawQuery := "viewPanel=" ++ kvGet a.annotations "__panelId__" }
        else e.panelURL
      else e.panelURL := by
  unfold fillURLs
  dsimp only
  split <;> (try split) <;> rfl

/-! ### The group-extension loop -/

theorem extendLoop_ok (ext : String) :
    ∀ (alerts : List Alert) (acc res : List ExtendedAlert),
      extendLoop ext acc alerts = .ok res →
      ∃ exts, res = acc ++ exts ∧ exts.length = alerts.length ∧
        ∀ (i : Nat) (a : Alert), alerts[i]? = some a →
          ∃ ea, extendAlert a ext = .ok ea ∧ exts[i]? = some ea
  | [], acc, res, h => by
    refine ⟨[], ?_, rfl, ?_⟩
    · rw [List.append_nil]
      exact (Except.ok.inj h).symm
    · intro i a ha
      simp at ha
  | alert :: alerts, acc, res, h => by
    unfold extendLoop at h
    cases hea : extendAlert alert ext with
    | error e =>
      rw [hea] at h
      exact Except.noConfusion h
    | ok ea =>
      rw [hea] at h
      obtain ⟨exts, hres, hlen, hidx⟩ := extendLoop_ok ext alerts (acc ++ [ea]) res h
      refine ⟨ea :: exts, ?_, by simp [hlen], ?_⟩
      · rw [hres, List.append_assoc]
        rfl
      · intro i a ha
        cases i with
        | zero =>
          simp only [List.getElem?_cons_zero, Option.some.injEq] at ha
          subst ha
          exact ⟨ea, hea, by simp⟩
        | succ n =>
          simp only [List.getElem?_cons_succ] at ha ⊢
          exact hidx n a ha

/-! ### The status filters as list filters -/

theorem foldl_if_append_eq_filter {α : Type} (p : α → Bool) :
    ∀ (l acc : List α),
      l.foldl (fun res a => if p a then res ++ [a] else res) acc =
        acc ++ l.filter p
  | [], acc => by simp
  | a :: l, acc => by
    cases hpa : p a <;>
      simp [List.foldl_cons, List.filter_cons, hpa,
        foldl_if_append_eq_filter p l]

/-! ## The claims -/

/-- **C1.** For every alert processed by `extendAlert` (and for the
group-level common labels and common annotations processed by
`ExtendData`), every key that begins and ends with a double underscore is
absent from the enriched output's labels and annotations maps, and every
key not matching that pattern is preserved with its original value. -/
theorem privateKeys_absent_nonPrivate_preserved :
    (∀ (a : Alert) (s : String) (ea : ExtendedAlert),
        extendAlert a s = .ok ea →
        ∀ k : String,
          (isPrivateKey k = true →
            ea.labels.lookup k = none ∧ ea.annotations.lookup k = none) ∧
          (isPrivateKey k = false →
            ea.labels.lookup k = a.labels.lookup k ∧
            ea.annotations.lookup k = a.annotations.lookup k)) ∧
    (∀ (data : Data) (ed : ExtendedData),
        ExtendData data = .ok ed →
        ∀ k : String,
          (isPrivateKey k = true →
            ed.commonLabels.lookup k = none ∧
            ed.commonAnnotations.lookup k = none) ∧
          (isPrivateKey k = false →
            ed.commonLabels.lookup k = data.commonLabels.lookup k ∧
            ed.commonAnnotations.lookup k = data.commonAnnotations.lookup k)) := by
  have main : ∀ (kvL kvA : KV) (k : String),
      (isPrivateKey k = true →
        (removePrivateItems kvL).lookup k = none ∧
        (removePrivateItems kvA).lookup k = none) ∧
      (isPrivateKey k = false →
        (removePrivateItems kvL).lookup k = kvL.lookup k ∧
        (removePrivateItems kvA).lookup k = kvA.lookup k) := by
    intro kvL kvA k
    constructor
    · intro hpk
      rw [removePrivateItems_lookup, removePrivateItems_lookup]
      simp [hpk]
    · intro hpk
      rw [removePrivateItems_lookup, removePrivateItems_lookup]
      simp [hpk]
  constructor
  · intro a s ea h k
    have hfield : ea.labels = removePrivateItems a.labels ∧
        ea.annotations = removePrivateItems a.annotations := by
      by_cases hlen : 0 < s.length
      · cases hu : urlParse s with
        | error e =>
          rw [extendAlert_err a s e hlen hu] at h
          exact Except.noConfusion h
        | ok u =>
          rw [extendAlert_ok_pos a s u hlen hu] at h
          have hea := (Except.ok.inj h).symm
          subst hea
          constructor
          · show removePrivateItems (fillURLs (initExtended a) a u).labels = _
            rw [fillURLs_labels]
            exact rfl
          · show removePrivateItems (fillURLs (initExtended a) a u).annotations = _
            rw [fillURLs_annotations]
            exact rfl
      · rw [extendAlert_no_url a s hlen] at h
        have hea := (Except.ok.inj h).symm
        subst hea
        exact ⟨rfl, rfl⟩
    rw [hfield.1, hfield.2]
    exact main a.labels a.annotations k
  · intro data ed h k
    have hfield : ed.commonLabels = removePrivateItems data.commonLabels ∧
        ed.commonAnnotations = removePrivateItems data.commonAnnotations := by
      unfold ExtendData at h
      cases hl : extendLoop data.externalURL [] data.alerts with
      | error e =>
        rw [hl] at h
        exact Except.noConfusion h
      | ok alerts =>
        rw [hl] at h
        have hed := (Except.ok.inj h).symm
        subst hed
        exact ⟨rfl, rfl⟩
    rw [hfield.1, hfield.2]
    exact main data.commonLabels data.commonAnnotations k

/-- Witness for C1 at the worked example. -/
theorem privateKeys_absent_nonPrivate_preserved_witness :
    extendAlert exampleAlertFixed exampleURL = .ok exampleExtendedAlert ∧
    (isPrivateKey "__dashboardUid__" = true →
      exampleExtendedAlert.labels.lookup "__dashboardUid__" = none ∧
      exampleExtendedAlert.annotations.lookup "__dashboardUid__" = none) ∧
    (isPrivateKey "alertname" = false →
      exampleExtendedAlert.labels.lookup "alertname" =
        exampleAlertFixed.labels.lookup "alertname" ∧
      exampleExtendedAlert.annotations.lookup "alertname" =
        exampleAlertFixed.annotations.lookup "alertname") :=
  ⟨rfl,
    (privateKeys_absent_nonPrivate_preserved.1 exampleAlertFixed exampleURL
      exampleExtendedAlert rfl "__dashboardUid__").1,
    (privateKeys_absent_nonPrivate_preserved.1 exampleAlertFixed exampleURL
      exampleExtendedAlert rfl "alertname").2⟩

/-- **C2.** For every alert and every non-empty, parseable external base
URL, the silence URL is the base URL with path set to the base path joined
with `/alerting/silence/new` and query
`alertmanager=grafana&matchers=<encoded>`, where the matcher list holds one
`key=value` string per non-private label, sorted, comma-joined and
URL-encoded; and the result is independent of the label map's iteration
order. -/
theorem silenceURL_canonical (a : Alert) (s : String) (u : URL)
    (ea : ExtendedAlert) (hs : s ≠ "") (hp : urlParse s = .ok u)
    (h : extendAlert a s = .ok ea) :
    ea.silenceURL = urlString { u with
        path := pathJoin [u.path, "/alerting/silence/new"],
        rawQuery := "alertmanager=grafana&matchers=" ++
          queryEscape (joinSep ","
            (List.insertionSort (fun x y => strLe x y = true)
              (a.labels.filterMap matcherOfLabel))) } ∧
    (∀ (a2 : Alert) (ea2 : ExtendedAlert), a2.labels.Perm a.labels →
      extendAlert a2 s = .ok ea2 → ea2.silenceURL = ea.silenceURL) := by
  have hlen := string_pos_of_ne_empty hs
  rw [extendAlert_ok_pos a s u hlen hp] at h
  have hea := (Except.ok.inj h).symm
  subst hea
  constructor
  · exact fillURLs_silenceURL (initExtended a) a u
  · intro a2 ea2 hperm h2
    rw [extendAlert_ok_pos a2 s u hlen hp] at h2
    have hea2 := (Except.ok.inj h2).symm
    subst hea2
    show (fillURLs (initExtended a2) a2 u).silenceURL =
      (fillURLs (initExtended a) a u).silenceURL
    rw [fillURLs_silenceURL, fillURLs_silenceURL,
      insertionSort_eq_of_perm (List.Perm.filterMap matcherOfLabel hperm)]

/-- Witness for C2 at the worked example. -/
theorem silenceURL_canonical_witness :
    exampleURL ≠ "" ∧
    urlParse exampleURL = .ok exampleParsedURL ∧
    extendAlert exampleAlertFixed exampleURL = .ok exampleExtendedAlert ∧
    exampleExtendedAlert.silenceURL = urlString { exampleParsedURL with
      path := pathJoin [exampleParsedURL.path, "/alerting/silence/new"],
      rawQuery := "alertmanager=grafana&matchers=" ++
        queryEscape (joinSep ","
          (List.insertionSort (fun x y => strLe x y = true)
            (exampleAlertFixed.labels.filterMap matcherOfLabel))) } :=
  ⟨by decide, rfl, rfl,
    (silenceURL_canonical exampleAlertFixed exampleURL exampleParsedURL
      exampleExtendedAlert (by decide) rfl rfl).1⟩

/-- **C3 (counterexample).** On the spec's example input exactly as stated
— the dashboard uid among the *labels* — the code yields empty dashboard
and panel URLs, not the expected `https://example.com/d/abc` ones, because
`extendAlert` reads `__dashboardUid__` and `__panelId__` from the
annotations map. -/
theorem spec_example_counterexample :
    extendAlert exampleAlert exampleURL = .ok
      { status := "firing"
        labels := [("alertname", "Test"), ("severity", "high")]
        annotations := []
        startsAt := 0
        endsAt := 0
        generatorURL := ""
        fingerprint := "fp"
        silenceURL := "https://example.com/alerting/silence/new?alertmanager=grafana&matchers=alertname%3DTest%2Cseverity%3Dhigh"
        dashboardURL := ""
        panelURL := "" } ∧
    ("" : String) ≠ "https://example.com/d/abc" :=
  ⟨rfl, by decide⟩

/-- **C3 (amended).** The example behaves exactly as the spec expects once
the two private keys sit where the code reads them: in the annotations. -/
theorem spec_example_amended :
    extendAlert exampleAlertFixed exampleURL = .ok exampleExtendedAlert ∧
    exampleExtendedAlert.dashboardURL = "https://example.com/d/abc" ∧
    exampleExtendedAlert.panelURL = "https://example.com/d/abc?viewPanel=7" ∧
    exampleExtendedAlert.silenceURL = "https://example.com/alerting/silence/new?alertmanager=grafana&matchers=alertname%3DTest%2Cseverity%3Dhigh" ∧
    exampleExtendedAlert.labels = [("alertname", "Test"), ("severity", "high")] :=
  ⟨rfl, rfl, rfl, rfl, rfl⟩

/-- **C4 (counterexample).** A group whose external URL fails to parse but
whose alert list is empty is extended without error: the claim's "for every
alert group" fails on empty groups. -/
theorem malformed_url_empty_group_counterexample :
    (∃ e, urlParse emptyBadGroup.externalURL = .error e) ∧
    (∃ ed, ExtendData emptyBadGroup = .ok ed) :=
  ⟨⟨"net/url: invalid control character in URL", rfl⟩, ⟨_, rfl⟩⟩

/-- **C4 (amended).** For every alert group with at least one alert whose
external base URL fails to parse, `ExtendData` returns the
parse-failure error and no enriched group: it aborts on the first alert
and discards all partial results. -/
theorem malformed_url_aborts_group (data : Data) (e : String)
    (hne : data.alerts ≠ []) (hp : urlParse data.externalURL = .error e) :
    ExtendData data = .error ("failed to parse external URL: " ++ e) := by
  have hurl : data.externalURL ≠ "" := by
    intro h0
    rw [h0] at hp
    rw [show urlParse "" = .ok ⟨"", "", "", ""⟩ from rfl] at hp
    exact Except.noConfusion hp
  have hlen := string_pos_of_ne_empty hurl
  unfold ExtendData
  cases halerts : data.alerts with
  | nil => exact absurd halerts hne
  | cons a rest =>
    unfold extendLoop
    rw [extendAlert_err a data.externalURL e hlen hp]

/-- Witness for the amended C4 at a concrete malformed group. -/
theorem malformed_url_aborts_group_witness :
    badGroup.alerts ≠ [] ∧
    urlParse badGroup.externalURL =
      .error "net/url: invalid control character in URL" ∧
    ExtendData badGroup =
      .error ("failed to parse external URL: " ++
        "net/url: invalid control character in URL") :=
  ⟨by decide, rfl,
    malformed_url_aborts_group badGroup _ (by decide) rfl⟩

/-- **C5.** For every alert, if the external base URL is the empty string,
the enriched alert's dashboard, panel and silence URLs are all empty: URL
synthesis is skipped entirely. -/
theorem emptyExternalURL_no_urls (a : Alert) :
    ∃ ea, extendAlert a "" = .ok ea ∧
      ea.dashboardURL = "" ∧ ea.panelURL = "" ∧ ea.silenceURL = "" :=
  ⟨stripPrivate (initExtended a), rfl, rfl, rfl, rfl⟩

/-- **C6.** For every enriched alert produced by `extendAlert`, a non-empty
panel URL implies a non-empty dashboard URL. -/
theorem panelURL_requires_dashboardURL (a : Alert) (s : String)
    (ea : ExtendedAlert) (h : extendAlert a s = .ok ea)
    (hp : ea.panelURL ≠ "") : ea.dashboardURL ≠ "" := by
  by_cases hlen : 0 < s.length
  · cases hu : urlParse s with
    | error e =>
      rw [extendAlert_err a s e hlen hu] at h
      exact Except.noConfusion h
    | ok u =>
      rw [extendAlert_ok_pos a s u hlen hu] at h
      have hea := (Except.ok.inj h).symm
      subst hea
      show (fillURLs (initExtended a) a u).dashboardURL ≠ ""
      rw [fillURLs_dashboardURL]
      by_cases huid : 0 < (kvGet a.annotations "__dashboardUid__").length
      · rw [if_pos huid]
        exact urlString_ne_empty _ (pathJoin_dash_ne_empty u.path _)
      · exfalso
        apply hp
        show (fillURLs (initExtended a) a u).panelURL = ""
        rw [fillURLs_panelURL, if_neg huid]
        exact rfl
  · rw [extendAlert_no_url a s hlen] at h
    have hea := (Except.ok.inj h).symm
    subst hea
    exact absurd rfl hp

/-- Witness for C6 at the worked example. -/
theorem panelURL_requires_dashboardURL_witness :
    extendAlert exampleAlertFixed exampleURL = .ok exampleExtendedAlert ∧
    exampleExtendedAlert.panelURL ≠ "" ∧
    exampleExtendedAlert.dashboardURL ≠ "" :=
  ⟨rfl, by decide,
    panelURL_requires_dashboardURL exampleAlertFixed exampleURL
      exampleExtendedAlert rfl (by decide)⟩

/-- **C7.** For every alert group on which `ExtendData` succeeds, the
output alert sequence has the input's length, each output entry is the
extension of the input entry at the same index, and an empty input yields
an empty output sequence. -/
theorem group_preserves_count_and_order (data : Data) (ed : ExtendedData)
    (h : ExtendData data = .ok ed) :
    ed.alerts.length = data.alerts.length ∧
    (∀ (i : Nat) (a : Alert), data.alerts[i]? = some a →
      ∃ ea, extendAlert a data.externalURL = .ok ea ∧
        ed.alerts[i]? = some ea) ∧
    (data.alerts = [] → ed.alerts = []) := by
  unfold ExtendData at h
  cases hl : extendLoop data.externalURL [] data.alerts with
  | error e =>
    rw [hl] at h
    exact Except.noConfusion h
  | ok alerts =>
    rw [hl] at h
    have hed := (Except.ok.inj h).symm
    subst hed
    obtain ⟨exts, hres, hlen, hidx⟩ :=
      extendLoop_ok data.externalURL data.alerts [] alerts hl
    rw [List.nil_append] at hres
    subst hres
    refine ⟨hlen, hidx, ?_⟩
    intro hnil
    rw [hnil] at hlen
    exact List.eq_nil_of_length_eq_zero hlen

/-- Witness for C7 at a concrete one-alert group. -/
theorem group_preserves_count_and_order_witness :
    ExtendData exampleGroup = .ok exampleExtendedData ∧
    exampleExtendedData.alerts.length = exampleGroup.alerts.length :=
  ⟨rfl,
    (group_preserves_count_and_order exampleGroup exampleExtendedData rfl).1⟩

/-- **C8.** The render closure (its shared error slot made explicit): a set
slot makes a call return `""` and leaves the slot unchanged; an unset slot
makes a call run the engine and store its outcome, including any error; and
over any sequence of calls a set slot is never overwritten, so the first
error wins. -/
theorem render_closure_error_latch
    (execute : String → String × Option String) (name : String) :
    (∀ e, tmplRender execute name (some e) = ("", some e)) ∧
    tmplRender execute name none = execute name ∧
    (∀ (names : List String) (e : String),
      tmplRenderAll execute names (some e) = some e) := by
  refine ⟨fun _ => rfl, rfl, ?_⟩
  intro names
  induction names with
  | nil => intro e; rfl
  | cons n ns ih => intro e; exact ih e

/-- **C9.** `Firing` and `Resolved` return exactly the entries whose status
is the corresponding literal, in original order (they equal a list
filter); in particular they are empty lists when nothing matches, and the
input list is untouched. -/
theorem status_filters_eq_filter (as : List ExtendedAlert) :
    Firing as = as.filter (fun a => a.status == alertFiring) ∧
    Resolved as = as.filter (fun a => a.status == alertResolved) := by
  constructor
  · have h := foldl_if_append_eq_filter
      (fun a : ExtendedAlert => a.status == alertFiring) as []
    simpa [Firing] using h
  · have h := foldl_if_append_eq_filter
      (fun a : ExtendedAlert => a.status == alertResolved) as []
    simpa [Resolved] using h

/-- **C10.** For every alert group with an empty alert sequence,
`ExtendData` succeeds — even when the external base URL is malformed —
because the base URL is only parsed while extending an individual alert. -/
theorem empty_group_skips_url_parse (data : Data) (e : String)
    (halerts : data.alerts = []) (hp : urlParse data.externalURL = .error e) :
    ExtendData data = .ok
      { receiver := data.receiver
        status := data.status
        alerts := []
        groupLabels := data.groupLabels
        commonLabels := removePrivateItems data.commonLabels
        commonAnnotations := removePrivateItems data.commonAnnotations
        externalURL := data.externalURL } := by
  unfold ExtendData
  rw [halerts]
  exact rfl

/-- Witness for C10 at a concrete empty group with a malformed URL. -/
theorem empty_group_skips_url_parse_witness :
    emptyBadGroup.alerts = [] ∧
    urlParse emptyBadGroup.externalURL =
      .error "net/url: invalid control character in URL" ∧
    ExtendData emptyBadGroup = .ok
      { receiver := emptyBadGroup.receiver
        status := emptyBadGroup.status
        alerts := []
        groupLabels := emptyBadGroup.groupLabels
        commonLabels := removePrivateItems emptyBadGroup.commonLabels
        commonAnnotations := removePrivateItems emptyBadGroup.commonAnnotations
        externalURL := emptyBadGroup.externalURL } :=
  ⟨rfl, rfl, empty_group_skips_url_parse emptyBadGroup _ rfl rfl⟩

end GrafanaTemplateData
